import Mathlib

/-
Verification of the NUTS (No-U-Turn Sampler) repository.

The repository ships the example notebook (power-law mass-function
likelihood) together with a NUTS sampler core (leapfrog integrator,
recursive tree builder, dual-averaging step-size adaptation, driver
loop `nuts6`).  The notebook's model functions are translated directly
from the source; the sampler core, whose source file is not part of the
checkout, is modelled from the specification, with the transcendental
floating-point operations of the original either carried out over the
reals or abstracted as explicit functional parameters where executability
is needed.
-/

/-! ## Phase space and the leapfrog integrator (sampler core) -/

/-- Phase-space point: a position and a momentum vector of dimension `D`.
Vectors are represented as functions `Fin D → ℚ`; exact rational arithmetic
stands in for the source's floating point. -/
@[ext]
structure PhaseState (D : ℕ) where
  q : Fin D → ℚ
  p : Fin D → ℚ

/-- Euclidean dot product of two `D`-dimensional rational vectors. -/
def dot {D : ℕ} (a b : Fin D → ℚ) : ℚ :=
  (List.ofFn fun i => a i * b i).sum

/-- Modelled from the spec: the leapfrog integrator (spec 4.1), advancing a
phase-space point by one discretized Hamiltonian step of signed size
`eps`: half momentum kick, full position drift, half momentum kick. -/
def leapfrog {D : ℕ} (grad : (Fin D → ℚ) → Fin D → ℚ)
    (s : PhaseState D) (eps : ℚ) : PhaseState D :=
  ⟨fun i => s.q i + eps * (s.p i + 0.5 * eps * grad s.q i),
   fun i => (s.p i + 0.5 * eps * grad s.q i) +
     0.5 * eps *
       grad (fun j => s.q j + eps * (s.p j + 0.5 * eps * grad s.q j)) i⟩

/-- Unfolding of the momentum component of a leapfrog step: the final half
kick uses the gradient at the new position. -/
theorem leapfrog_p_eq {D : ℕ} (grad : (Fin D → ℚ) → Fin D → ℚ)
    (s : PhaseState D) (eps : ℚ) :
    (leapfrog grad s eps).p =
      fun i => (s.p i + 0.5 * eps * grad s.q i) +
        0.5 * eps * grad (leapfrog grad s eps).q i :=
  rfl

/-- C6: the leapfrog integrator is reversible: one step of size `eps`
followed by one step of size `-eps` (from the resulting state, i.e. with the
intermediate momentum) restores the original position and momentum exactly
in exact arithmetic, for every gradient function, state and step size. -/
theorem leapfrog_reversible {D : ℕ} (grad : (Fin D → ℚ) → Fin D → ℚ)
    (s : PhaseState D) (eps : ℚ) :
    leapfrog grad (leapfrog grad s eps) (-eps) = s := by
  have hq : (leapfrog grad (leapfrog grad s eps) (-eps)).q = s.q := by
    funext i
    simp only [leapfrog]
    ring
  have hp : (leapfrog grad (leapfrog grad s eps) (-eps)).p = s.p := by
    rw [leapfrog_p_eq, hq]
    funext i
    simp only [leapfrog]
    ring
  exact PhaseState.ext hq hp

/-! ## Recursive tree builder (sampler core) -/

/-- Summary values of one (sub)tree produced by a doubling step: outermost
endpoints, candidate proposal, number of valid states, continuation flag,
and the accumulated acceptance statistics for dual averaging. -/
structure TreeNode (D : ℕ) where
  leftmost : PhaseState D
  rightmost : PhaseState D
  proposal : Fin D → ℚ
  n : ℕ
  sflag : Bool
  alphaSum : ℚ
  nalpha : ℕ

/-- No-U-turn criterion on a pair of outermost endpoints: the trajectory
may continue iff the displacement from the leftmost to the rightmost
position has nonnegative dot product with both endpoint momenta. -/
def stopOK {D : ℕ} (lm rm : PhaseState D) : Bool :=
  decide (0 ≤ dot (fun i => rm.q i - lm.q i) lm.p) &&
  decide (0 ≤ dot (fun i => rm.q i - lm.q i) rm.p)

/-- Modelled from the spec: the recursive tree builder (spec 4.3).  The
missing source's `build_tree` is reproduced with: `logDensity` and `grad`
the target-model capability, `expFn` standing for the floating-point
exponential in the acceptance statistic, `Dmax` the divergence threshold,
`coin` a deterministic oracle for the slice-selection randomness indexed by
the recursion path `addr`, `logu` the log of the slice variable, `dir` the
trajectory direction (`true` for +1), and `joint0` the initial joint
log-density.  Depth 0 takes one leapfrog step of size `direction * eps`,
counts the state valid iff the slice and divergence conditions hold, and
flags divergence; depth `d+1` builds two subtrees of depth `d` (the second
only if the first continues), combines endpoints outermost-first, selects
the proposal by a size-weighted coin, and conjoins the continuation flags
with the no-U-turn criterion. -/
def build_tree {D : ℕ} (logDensity : (Fin D → ℚ) → ℚ)
    (grad : (Fin D → ℚ) → Fin D → ℚ) (expFn : ℚ → ℚ) (Dmax : ℚ)
    (coin : List Bool → ℚ) (logu eps joint0 : ℚ) (dir : Bool) :
    ℕ → List Bool → PhaseState D → TreeNode D
  | 0, _, st =>
    let st1 := leapfrog grad st (if dir then eps else -eps)
    let joint := logDensity st1.q - 0.5 * dot st1.p st1.p
    let nprime : ℕ := if logu ≤ joint ∧ joint - joint0 > -Dmax then 1 else 0
    let sprime : Bool := decide (joint - joint0 > -Dmax)
    ⟨st1, st1, st1.q, nprime, sprime, min 1 (expFn (joint - joint0)), 1⟩
  | d + 1, addr, st =>
    let t1 := build_tree logDensity grad expFn Dmax coin logu eps joint0 dir
      d (false :: addr) st
    if t1.sflag then
      let t2 := build_tree logDensity grad expFn Dmax coin logu eps joint0 dir
        d (true :: addr) (if dir then t1.rightmost else t1.leftmost)
      let lm := if dir then t1.leftmost else t2.leftmost
      let rm := if dir then t2.rightmost else t1.rightmost
      ⟨lm, rm,
       (if coin addr * (t1.n + t2.n) < t2.n then t2.proposal else t1.proposal),
       t1.n + t2.n,
       t1.sflag && t2.sflag && stopOK lm rm,
       t1.alphaSum + t2.alphaSum, t1.nalpha + t2.nalpha⟩
    else t1

/-- C2: in the base case of the tree builder (depth 0), after one leapfrog
step of size `direction * eps` with joint log-density `joint`, the new
state counts as valid (`n = 1`) iff the slice condition `logu ≤ joint`
and the divergence condition `joint - joint0 > -Dmax` both hold, and it
contributes `n = 0` whenever either condition fails. -/
theorem build_tree_base_valid {D : ℕ} (logDensity : (Fin D → ℚ) → ℚ)
    (grad : (Fin D → ℚ) → Fin D → ℚ) (expFn : ℚ → ℚ) (Dmax : ℚ)
    (coin : List Bool → ℚ) (logu eps joint0 : ℚ) (dir : Bool)
    (addr : List Bool) (st : PhaseState D) :
    ((build_tree logDensity grad expFn Dmax coin logu eps joint0 dir
        0 addr st).n = 1 ↔
      (logu ≤ logDensity (leapfrog grad st (if dir then eps else -eps)).q -
          0.5 * dot (leapfrog grad st (if dir then eps else -eps)).p
            (leapfrog grad st (if dir then eps else -eps)).p ∧
        logDensity (leapfrog grad st (if dir then eps else -eps)).q -
          0.5 * dot (leapfrog grad st (if dir then eps else -eps)).p
            (leapfrog grad st (if dir then eps else -eps)).p - joint0 >
          -Dmax)) ∧
    (¬ (logu ≤ logDensity (leapfrog grad st (if dir then eps else -eps)).q -
          0.5 * dot (leapfrog grad st (if dir then eps else -eps)).p
            (leapfrog grad st (if dir then eps else -eps)).p ∧
        logDensity (leapfrog grad st (if dir then eps else -eps)).q -
          0.5 * dot (leapfrog grad st (if dir then eps else -eps)).p
            (leapfrog grad st (if dir then eps else -eps)).p - joint0 >
          -Dmax) →
      (build_tree logDensity grad expFn Dmax coin logu eps joint0 dir
        0 addr st).n = 0) := by
  simp only [build_tree]
  constructor
  · split <;> simp_all
  · intro h
    rw [if_neg h]

section TreeCombine

variable {D : ℕ} (logDensity : (Fin D → ℚ) → ℚ)
  (grad : (Fin D → ℚ) → Fin D → ℚ) (expFn : ℚ → ℚ) (Dmax : ℚ)
  (coin : List Bool → ℚ) (logu eps joint0 : ℚ) (dir : Bool) (d : ℕ)
  (addr : List Bool) (st : PhaseState D)

/-- First (inner) depth-`d` subtree built by the recursive case at depth
`d + 1`. -/
def subtree1 : TreeNode D :=
  build_tree logDensity grad expFn Dmax coin logu eps joint0 dir
    d (false :: addr) st

/-- Second (outer) depth-`d` subtree of the recursive case, grown from the
first subtree's far endpoint in the same direction. -/
def subtree2 : TreeNode D :=
  build_tree logDensity grad expFn Dmax coin logu eps joint0 dir
    d (true :: addr)
    (if dir then
      (subtree1 logDensity grad expFn Dmax coin logu eps joint0 dir
        d addr st).rightmost
     else
      (subtree1 logDensity grad expFn Dmax coin logu eps joint0 dir
        d addr st).leftmost)

/-- Leftmost endpoint of the combined tree: the physically outermost one
given the direction. -/
def combinedLeft : PhaseState D :=
  if dir then
    (subtree1 logDensity grad expFn Dmax coin logu eps joint0 dir
      d addr st).leftmost
  else
    (subtree2 logDensity grad expFn Dmax coin logu eps joint0 dir
      d addr st).leftmost

/-- Rightmost endpoint of the combined tree: the physically outermost one
given the direction. -/
def combinedRight : PhaseState D :=
  if dir then
    (subtree2 logDensity grad expFn Dmax coin logu eps joint0 dir
      d addr st).rightmost
  else
    (subtree1 logDensity grad expFn Dmax coin logu eps joint0 dir
      d addr st).rightmost

/-- C3: in the recursive case of the tree builder (here entered with a
continuing first subtree), the combined continuation flag equals the
conjunction of both subtrees' flags with the no-U-turn criterion on the
combined tree's outermost endpoints, and in particular it is `false`
whenever the displacement from the combined leftmost to the combined
rightmost position has negative dot product with either outermost
momentum. -/
theorem build_tree_recursive_stop
    (h1 : (subtree1 logDensity grad expFn Dmax coin logu eps joint0 dir
      d addr st).sflag = true) :
    ((build_tree logDensity grad expFn Dmax coin logu eps joint0 dir
        (d + 1) addr st).sflag =
      ((subtree1 logDensity grad expFn Dmax coin logu eps joint0 dir
          d addr st).sflag &&
        (subtree2 logDensity grad expFn Dmax coin logu eps joint0 dir
          d addr st).sflag &&
        stopOK
          (combinedLeft logDensity grad expFn Dmax coin logu eps joint0 dir
            d addr st)
          (combinedRight logDensity grad expFn Dmax coin logu eps joint0 dir
            d addr st))) ∧
    ((dot (fun i =>
          (combinedRight logDensity grad expFn Dmax coin logu eps joint0 dir
            d addr st).q i -
          (combinedLeft logDensity grad expFn Dmax coin logu eps joint0 dir
            d addr st).q i)
        (combinedLeft logDensity grad expFn Dmax coin logu eps joint0 dir
          d addr st).p < 0 ∨
      dot (fun i =>
          (combinedRight logDensity grad expFn Dmax coin logu eps joint0 dir
            d addr st).q i -
          (combinedLeft logDensity grad expFn Dmax coin logu eps joint0 dir
            d addr st).q i)
        (combinedRight logDensity grad expFn Dmax coin logu eps joint0 dir
          d addr st).p < 0) →
      (build_tree logDensity grad expFn Dmax coin logu eps joint0 dir
        (d + 1) addr st).sflag = false) := by
  have hmain : (build_tree logDensity grad expFn Dmax coin logu eps joint0 dir
      (d + 1) addr st).sflag =
      ((subtree1 logDensity grad expFn Dmax coin logu eps joint0 dir
          d addr st).sflag &&
        (subtree2 logDensity grad expFn Dmax coin logu eps joint0 dir
          d addr st).sflag &&
        stopOK
          (combinedLeft logDensity grad expFn Dmax coin logu eps joint0 dir
            d addr st)
          (combinedRight logDensity grad expFn Dmax coin logu eps joint0 dir
            d addr st)) := by
    simp only [subtree1] at h1
    simp only [build_tree, subtree1, subtree2, combinedLeft, combinedRight,
      if_pos h1]
  refine ⟨hmain, fun h => ?_⟩
  have hstop : stopOK
      (combinedLeft logDensity grad expFn Dmax coin logu eps joint0 dir
        d addr st)
      (combinedRight logDensity grad expFn Dmax coin logu eps joint0 dir
        d addr st) = false := by
    rcases h with h | h
    · simp [stopOK, not_le.mpr h]
    · simp [stopOK, not_le.mpr h]
  rw [hmain, hstop, Bool.and_false]

end TreeCombine

/-- Witness for C3 in dimension 1 at depth 1 on a flat target (zero
gradient, zero log-density), with slice variable below the joint so the
first subtree continues. -/
theorem build_tree_recursive_stop_witness :
    (subtree1 (D := 1) (fun _ => 0) (fun _ _ => 0) (fun _ => 1) 1000
      (fun _ => 0) (-1) 1 0 true 0 [] ⟨fun _ => 0, fun _ => 1⟩).sflag =
      true ∧
    (((build_tree (D := 1) (fun _ => 0) (fun _ _ => 0) (fun _ => 1) 1000
        (fun _ => 0) (-1) 1 0 true (0 + 1) []
        ⟨fun _ => 0, fun _ => 1⟩).sflag =
      ((subtree1 (D := 1) (fun _ => 0) (fun _ _ => 0) (fun _ => 1) 1000
          (fun _ => 0) (-1) 1 0 true 0 []
          ⟨fun _ => 0, fun _ => 1⟩).sflag &&
        (subtree2 (D := 1) (fun _ => 0) (fun _ _ => 0) (fun _ => 1) 1000
          (fun _ => 0) (-1) 1 0 true 0 []
          ⟨fun _ => 0, fun _ => 1⟩).sflag &&
        stopOK
          (combinedLeft (D := 1) (fun _ => 0) (fun _ _ => 0) (fun _ => 1)
            1000 (fun _ => 0) (-1) 1 0 true 0 [] ⟨fun _ => 0, fun _ => 1⟩)
          (combinedRight (D := 1) (fun _ => 0) (fun _ _ => 0) (fun _ => 1)
            1000 (fun _ => 0) (-1) 1 0 true 0 []
            ⟨fun _ => 0, fun _ => 1⟩))) ∧
      ((dot (fun i =>
            (combinedRight (D := 1) (fun _ => 0) (fun _ _ => 0)
              (fun _ => 1) 1000 (fun _ => 0) (-1) 1 0 true 0 []
              ⟨fun _ => 0, fun _ => 1⟩).q i -
            (combinedLeft (D := 1) (fun _ => 0) (fun _ _ => 0) (fun _ => 1)
              1000 (fun _ => 0) (-1) 1 0 true 0 []
              ⟨fun _ => 0, fun _ => 1⟩).q i)
          (combinedLeft (D := 1) (fun _ => 0) (fun _ _ => 0) (fun _ => 1)
            1000 (fun _ => 0) (-1) 1 0 true 0 []
            ⟨fun _ => 0, fun _ => 1⟩).p < 0 ∨
        dot (fun i =>
            (combinedRight (D := 1) (fun _ => 0) (fun _ _ => 0)
              (fun _ => 1) 1000 (fun _ => 0) (-1) 1 0 true 0 []
              ⟨fun _ => 0, fun _ => 1⟩).q i -
            (combinedLeft (D := 1) (fun _ => 0) (fun _ _ => 0) (fun _ => 1)
              1000 (fun _ => 0) (-1) 1 0 true 0 []
              ⟨fun _ => 0, fun _ => 1⟩).q i)
          (combinedRight (D := 1) (fun _ => 0) (fun _ _ => 0) (fun _ => 1)
            1000 (fun _ => 0) (-1) 1 0 true 0 []
            ⟨fun _ => 0, fun _ => 1⟩).p < 0) →
        (build_tree (D := 1) (fun _ => 0) (fun _ _ => 0) (fun _ => 1) 1000
          (fun _ => 0) (-1) 1 0 true (0 + 1) []
          ⟨fun _ => 0, fun _ => 1⟩).sflag = false)) := by
  have h1 : (subtree1 (D := 1) (fun _ => 0) (fun _ _ => 0) (fun _ => 1)
      1000 (fun _ => 0) (-1) 1 0 true 0 []
      ⟨fun _ => 0, fun _ => 1⟩).sflag = true := by
    norm_num [subtree1, build_tree, leapfrog, dot]
  exact ⟨h1,
    build_tree_recursive_stop (fun _ => 0) (fun _ _ => 0) (fun _ => 1) 1000
      (fun _ => 0) (-1) 1 0 true 0 [] ⟨fun _ => 0, fun _ => 1⟩ h1⟩

/-! ## Dual averaging and the sampler driver (sampler core) -/

/-- One emitted chain record: accepted position, its log-probability, and
the step size used for the iteration. -/
structure SampleRecord where
  pos : List ℝ
  logProb : ℝ
  eps : ℝ

/-- Dual-averaging adaptation state, kept in log step-size space:
the running statistic `hbar`, the current log step size `logEps`, and the
averaged log step size `logEpsBar`. -/
structure AdaptState where
  hbar : ℝ
  logEps : ℝ
  logEpsBar : ℝ

/-- Modelled from the spec: one dual-averaging update (spec 4.4) at
iteration `t` with mean acceptance statistic `abar`, target acceptance
`delta` and offset `mu`, with the fixed constants gamma = 0.05, t0 = 10
and kappa = 0.75 written out as numerals. -/
noncomputable def daUpdate (mu delta : ℝ) (t : ℕ) (abar : ℝ)
    (s : AdaptState) : AdaptState :=
  let hbar := (1 - 1 / ((t : ℝ) + 10)) * s.hbar +
    (1 / ((t : ℝ) + 10)) * (delta - abar)
  let logEps := mu - Real.sqrt t / 0.05 * hbar
  let logEpsBar := (t : ℝ) ^ (-(0.75 : ℝ)) * logEps +
    (1 - (t : ℝ) ^ (-(0.75 : ℝ))) * s.logEpsBar
  ⟨hbar, logEps, logEpsBar⟩

/-- Running state of the sampler driver: current position, adaptation
state, and the records emitted so far. -/
structure DriverState where
  pos : List ℝ
  adapt : AdaptState
  recs : List SampleRecord

/-- Modelled from the spec: one driver iteration (spec 4.5).  The
tree-building draw is abstracted by the oracle `sample` (accepted position
and log-probability per iteration index) and the iteration's mean
acceptance statistic by the oracle `abar`; the iteration emits one record
carrying the step size it used (the adapting one during the first `Madapt`
iterations, the frozen averaged one afterwards) and runs the
dual-averaging update exactly when `m ≤ Madapt`, with
`mu = log (10 * eps0)`. -/
noncomputable def nutsIter (Madapt : ℕ) (eps0 delta : ℝ)
    (sample : ℕ → List ℝ × ℝ) (abar : ℕ → ℝ) (m : ℕ)
    (s : DriverState) : DriverState :=
  let epsUsed := if m ≤ Madapt then Real.exp s.adapt.logEps
    else Real.exp s.adapt.logEpsBar
  let adapt2 := if m ≤ Madapt then
      daUpdate (Real.log (10 * eps0)) delta m (abar m) s.adapt
    else s.adapt
  ⟨(sample m).1, adapt2, s.recs ++ [⟨(sample m).1, (sample m).2, epsUsed⟩]⟩

/-- Modelled from the spec: the driver loop after `n` iterations, started
from `theta0` with initial step size `eps0` (so `logEps = log eps0`,
`logEpsBar = log 1 = 0`, `hbar = 0`). -/
noncomputable def runIters (Madapt : ℕ) (theta0 : List ℝ) (eps0 delta : ℝ)
    (sample : ℕ → List ℝ × ℝ) (abar : ℕ → ℝ) : ℕ → DriverState
  | 0 => ⟨theta0, ⟨0, Real.log eps0, 0⟩, []⟩
  | n + 1 => nutsIter Madapt eps0 delta sample abar (n + 1)
      (runIters Madapt theta0 eps0 delta sample abar n)

/-- Modelled from the spec: the sampler driver `nuts6` (spec 4.5): run
`M + Madapt` iterations and report the recorded chain with the first
`Madapt` warm-up records discarded. -/
noncomputable def nuts6 (M Madapt : ℕ) (theta0 : List ℝ) (eps0 delta : ℝ)
    (sample : ℕ → List ℝ × ℝ) (abar : ℕ → ℝ) : List SampleRecord :=
  ((runIters Madapt theta0 eps0 delta sample abar (M + Madapt)).recs).drop
    Madapt

/-- The driver records exactly one sample per iteration. -/
theorem runIters_recs_length (Madapt : ℕ) (theta0 : List ℝ)
    (eps0 delta : ℝ) (sample : ℕ → List ℝ × ℝ) (abar : ℕ → ℝ) (n : ℕ) :
    (runIters Madapt theta0 eps0 delta sample abar n).recs.length = n := by
  induction n with
  | zero => rfl
  | succ n ih => simp [runIters, nutsIter, ih]

/-- C1: for every valid configuration (`0 < M`, `Madapt` a natural
number), the driver runs `M + Madapt` iterations and returns exactly the
post-warm-up portion of the recorded chain: the first `Madapt` records are
dropped and exactly `M` records are reported. -/
theorem nuts6_returns_post_warmup (M Madapt : ℕ) (hM : 0 < M)
    (theta0 : List ℝ) (eps0 delta : ℝ) (sample : ℕ → List ℝ × ℝ)
    (abar : ℕ → ℝ) :
    (nuts6 M Madapt theta0 eps0 delta sample abar).length = M ∧
    nuts6 M Madapt theta0 eps0 delta sample abar =
      ((runIters Madapt theta0 eps0 delta sample abar
        (M + Madapt)).recs).drop Madapt := by
  refine ⟨?_, rfl⟩
  simp only [nuts6, List.length_drop, runIters_recs_length]
  omega

/-- Witness for C1 at the configuration M = 1, Madapt = 0 with trivial
oracles. -/
theorem nuts6_returns_post_warmup_witness :
    0 < 1 ∧
    ((nuts6 1 0 [] 1 0.5 (fun _ => ([], 0)) fun _ => 0).length = 1 ∧
      nuts6 1 0 [] 1 0.5 (fun _ => ([], 0)) (fun _ => 0) =
        ((runIters 0 [] 1 0.5 (fun _ => ([], 0)) (fun _ => 0)
          (1 + 0)).recs).drop 0) :=
  ⟨by decide,
   nuts6_returns_post_warmup 1 0 (by decide) [] 1 0.5 (fun _ => ([], 0))
     fun _ => 0⟩

/-- The adaptation state is never mutated after the first `Madapt`
iterations. -/
theorem adapt_frozen (Madapt : ℕ) (theta0 : List ℝ) (eps0 delta : ℝ)
    (sample : ℕ → List ℝ × ℝ) (abar : ℕ → ℝ) (k : ℕ) :
    (runIters Madapt theta0 eps0 delta sample abar (Madapt + k)).adapt =
      (runIters Madapt theta0 eps0 delta sample abar Madapt).adapt := by
  induction k with
  | zero => rfl
  | succ k ih =>
    have hgt : ¬ (Madapt + k + 1 ≤ Madapt) := by omega
    simp [runIters, nutsIter, hgt, ih]

/-- C5: after warm-up the step size is frozen: for every iteration `m`
past the `Madapt`-th, the adaptation state equals the state at the end of
warm-up, and the record emitted at iteration `m` carries the single
positive scalar `exp logEpsBar` of that frozen state. -/
theorem epsilon_frozen_after_warmup (Madapt : ℕ) (theta0 : List ℝ)
    (eps0 delta : ℝ) (sample : ℕ → List ℝ × ℝ) (abar : ℕ → ℝ) (m : ℕ)
    (h : Madapt < m) :
    (runIters Madapt theta0 eps0 delta sample abar m).adapt =
      (runIters Madapt theta0 eps0 delta sample abar Madapt).adapt ∧
    ((runIters Madapt theta0 eps0 delta sample abar m).recs.getLast?).map
        SampleRecord.eps =
      some (Real.exp ((runIters Madapt theta0 eps0 delta sample abar
        Madapt).adapt.logEpsBar)) ∧
    0 < Real.exp ((runIters Madapt theta0 eps0 delta sample abar
      Madapt).adapt.logEpsBar) := by
  obtain ⟨k, rfl⟩ : ∃ k, m = Madapt + k + 1 := ⟨m - Madapt - 1, by omega⟩
  refine ⟨adapt_frozen Madapt theta0 eps0 delta sample abar (k + 1), ?_,
    Real.exp_pos _⟩
  have hfrozen := adapt_frozen Madapt theta0 eps0 delta sample abar k
  have hgt : ¬ (Madapt + k + 1 ≤ Madapt) := by omega
  simp [runIters, nutsIter, hgt, hfrozen]

/-- Witness for C5 at Madapt = 0, m = 1 with trivial oracles. -/
theorem epsilon_frozen_after_warmup_witness :
    0 < 1 ∧
    ((runIters 0 [] 1 0.5 (fun _ => ([], 0)) (fun _ => 0) 1).adapt =
      (runIters 0 [] 1 0.5 (fun _ => ([], 0)) (fun _ => 0) 0).adapt ∧
    ((runIters 0 [] 1 0.5 (fun _ => ([], 0)) (fun _ => 0)
        1).recs.getLast?).map SampleRecord.eps =
      some (Real.exp ((runIters 0 [] 1 0.5 (fun _ => ([], 0)) (fun _ => 0)
        0).adapt.logEpsBar)) ∧
    0 < Real.exp ((runIters 0 [] 1 0.5 (fun _ => ([], 0)) (fun _ => 0)
      0).adapt.logEpsBar)) :=
  ⟨by decide,
   epsilon_frozen_after_warmup 0 [] 1 0.5 (fun _ => ([], 0)) (fun _ => 0) 1
     (by decide)⟩

/-- C4: during each of the first `Madapt` iterations, and only during
those, the driver performs the dual-averaging update: `hbar` is the stated
convex combination with weight `1 / (m + t0)` (t0 = 10) of the previous
`hbar` and `delta - abar m`, `logEps = mu - sqrt m / gamma * hbar` with
gamma = 0.05 and `mu = log (10 * eps0)`, and `logEpsBar` is the convex
combination with weight `m ^ (-kappa)` (kappa = 0.75) of the new `logEps`
and the previous `logEpsBar`; past warm-up the adaptation state does not
change. -/
theorem dual_averaging_warmup (Madapt : ℕ) (theta0 : List ℝ)
    (eps0 delta : ℝ) (sample : ℕ → List ℝ × ℝ) (abar : ℕ → ℝ) (m : ℕ)
    (h : 1 ≤ m) :
    (m ≤ Madapt →
      (runIters Madapt theta0 eps0 delta sample abar m).adapt.hbar =
        (1 - 1 / ((m : ℝ) + 10)) *
          (runIters Madapt theta0 eps0 delta sample abar
            (m - 1)).adapt.hbar +
        (1 / ((m : ℝ) + 10)) * (delta - abar m) ∧
      (runIters Madapt theta0 eps0 delta sample abar m).adapt.logEps =
        Real.log (10 * eps0) - Real.sqrt m / 0.05 *
          (runIters Madapt theta0 eps0 delta sample abar m).adapt.hbar ∧
      (runIters Madapt theta0 eps0 delta sample abar m).adapt.logEpsBar =
        (m : ℝ) ^ (-(0.75 : ℝ)) *
          (runIters Madapt theta0 eps0 delta sample abar m).adapt.logEps +
        (1 - (m : ℝ) ^ (-(0.75 : ℝ))) *
          (runIters Madapt theta0 eps0 delta sample abar
            (m - 1)).adapt.logEpsBar) ∧
    (Madapt < m →
      (runIters Madapt theta0 eps0 delta sample abar m).adapt =
        (runIters Madapt theta0 eps0 delta sample abar (m - 1)).adapt) := by
  obtain ⟨n, rfl⟩ : ∃ n, m = n + 1 := ⟨m - 1, by omega⟩
  constructor
  · intro hle
    simp only [runIters, nutsIter, if_pos hle, daUpdate,
      Nat.add_sub_cancel]
    exact ⟨trivial, trivial, trivial⟩
  · intro hgt
    have hne : ¬ (n + 1 ≤ Madapt) := by omega
    simp only [runIters, nutsIter, if_neg hne, Nat.add_sub_cancel]

/-- Witness for C4 at Madapt = 1, m = 1 with trivial oracles. -/
theorem dual_averaging_warmup_witness :
    1 ≤ 1 ∧
    ((1 ≤ 1 →
      (runIters 1 [] 1 0.5 (fun _ => ([], 0)) (fun _ => 0) 1).adapt.hbar =
        (1 - 1 / ((1 : ℕ) + 10 : ℝ)) *
          (runIters 1 [] 1 0.5 (fun _ => ([], 0)) (fun _ => 0)
            (1 - 1)).adapt.hbar +
        (1 / ((1 : ℕ) + 10 : ℝ)) * (0.5 - 0) ∧
      (runIters 1 [] 1 0.5 (fun _ => ([], 0)) (fun _ => 0) 1).adapt.logEps =
        Real.log (10 * 1) - Real.sqrt ((1 : ℕ) : ℝ) / 0.05 *
          (runIters 1 [] 1 0.5 (fun _ => ([], 0))
            (fun _ => 0) 1).adapt.hbar ∧
      (runIters 1 [] 1 0.5 (fun _ => ([], 0)) (fun _ => 0)
          1).adapt.logEpsBar =
        ((1 : ℕ) : ℝ) ^ (-(0.75 : ℝ)) *
          (runIters 1 [] 1 0.5 (fun _ => ([], 0))
            (fun _ => 0) 1).adapt.logEps +
        (1 - ((1 : ℕ) : ℝ) ^ (-(0.75 : ℝ))) *
          (runIters 1 [] 1 0.5 (fun _ => ([], 0)) (fun _ => 0)
            (1 - 1)).adapt.logEpsBar) ∧
    (1 < 1 →
      (runIters 1 [] 1 0.5 (fun _ => ([], 0)) (fun _ => 0) 1).adapt =
        (runIters 1 [] 1 0.5 (fun _ => ([], 0)) (fun _ => 0)
          (1 - 1)).adapt)) :=
  ⟨by decide,
   dual_averaging_warmup 1 [] 1 0.5 (fun _ => ([], 0)) (fun _ => 0) 1
     (by decide)⟩

/-! ## Configuration validation (sampler core) -/

/-- Fatal configuration errors reported before any iteration executes. -/
inductive ConfigError where
  | invalidConfiguration

/-- Modelled from the spec: the validated sampler entry point (spec 7):
`Madapt < 0`, `M ≤ 0`, a mismatch between the dimension of `theta0` and
the gradient output dimension `gradDim`, or a non-finite initial
log-density (abstracted as the flag `logp0Finite`) are fatal and reported
before any iteration executes; otherwise the driver chain is returned. -/
noncomputable def nuts6Checked (M Madapt : ℤ) (theta0 : List ℝ)
    (gradDim : ℕ) (logp0Finite : Bool) (eps0 delta : ℝ)
    (sample : ℕ → List ℝ × ℝ) (abar : ℕ → ℝ) :
    Except ConfigError (List SampleRecord) :=
  if Madapt < 0 ∨ M ≤ 0 ∨ theta0.length ≠ gradDim ∨ logp0Finite = false
  then Except.error ConfigError.invalidConfiguration
  else Except.ok (nuts6 M.toNat Madapt.toNat theta0 eps0 delta sample abar)

/-- C7: for every configuration with `Madapt < 0`, `M ≤ 0`, a dimension
mismatch between `theta0` and the gradient output, or a non-finite initial
log-density, the sampler reports the fatal InvalidConfiguration error and
returns no (partial) chain. -/
theorem nuts6Checked_invalid (M Madapt : ℤ) (theta0 : List ℝ)
    (gradDim : ℕ) (logp0Finite : Bool) (eps0 delta : ℝ)
    (sample : ℕ → List ℝ × ℝ) (abar : ℕ → ℝ)
    (h : Madapt < 0 ∨ M ≤ 0 ∨ theta0.length ≠ gradDim ∨
      logp0Finite = false) :
    nuts6Checked M Madapt theta0 gradDim logp0Finite eps0 delta sample
      abar = Except.error ConfigError.invalidConfiguration := by
  simp only [nuts6Checked, if_pos h]

/-- Witness for C7 at the invalid configuration M = 0. -/
theorem nuts6Checked_invalid_witness :
    ((0 : ℤ) < 0 ∨ (0 : ℤ) ≤ 0 ∨ List.length ([] : List ℝ) ≠ 0 ∨
      true = false) ∧
    nuts6Checked 0 0 [] 0 true 1 0.5 (fun _ => ([], 0)) (fun _ => 0) =
      Except.error ConfigError.invalidConfiguration :=
  ⟨by decide,
   nuts6Checked_invalid 0 0 [] 0 true 1 0.5 (fun _ => ([], 0))
     (fun _ => 0) (by decide)⟩



/-! ## Power-law model functions (translated from the example notebook) -/

/-- Difference of powers appearing as a divisor in both model functions:
`M_max ** beta - M_min ** beta` (real powers). -/
noncomputable def powDiff (M_min M_max beta : ℝ) : ℝ :=
  M_max ^ beta - M_min ^ beta

/-- Log-likelihood of the power-law model, translated from the notebook's
`logLikelihood(theta, D, N, M_min, M_max)`: with `alpha = theta[0]` and
`beta = 1 - alpha`, the normalisation `c` is `log(M_max / M_min)` when
`beta == 0` and `beta / (M_max ** beta - M_min ** beta)` otherwise, and
the result is `N * log(c) - alpha * D`. -/
noncomputable def logLikelihood (theta : List ℝ) (D N M_min M_max : ℝ) :
    ℝ :=
  let alpha := theta.headI
  let beta := 1 - alpha
  let c := if beta = 0 then Real.log (M_max / M_min)
    else beta / powDiff M_min M_max beta
  N * Real.log c - alpha * D

/-- Gradient of the log-likelihood, translated from the notebook's
`grad_logLikelihood(theta, D, N, M_min, M_max)`: with `alpha = theta[0]`
and `beta = 1 - alpha`, when `beta != 0` the gradient is
`-D - N * (1 + (log(M_min) * M_min ** beta - log(M_max) * M_max ** beta) *
beta / (M_max ** beta - M_min ** beta)) / beta`, and `float(N)` otherwise;
the result is the one-element vector `np.array([grad])`. -/
noncomputable def grad_logLikelihood (theta : List ℝ)
    (D N M_min M_max : ℝ) : List ℝ :=
  let alpha := theta.headI
  let beta := 1 - alpha
  let logMmin := Real.log M_min
  let logMmax := Real.log M_max
  let grad := if beta ≠ 0 then
      -D - N * (1 + (logMmin * M_min ^ beta - logMmax * M_max ^ beta) *
        beta / powDiff M_min M_max beta) / beta
    else N
  [grad]

/-- C8: the model capability functions are pure and deterministic: two
calls of `logLikelihood` (respectively `grad_logLikelihood`) at identical
arguments return identical results; as total functions of their arguments
alone they touch no other state. -/
theorem model_capability_deterministic (theta : List ℝ)
    (D N M_min M_max : ℝ) :
    logLikelihood theta D N M_min M_max =
      logLikelihood theta D N M_min M_max ∧
    grad_logLikelihood theta D N M_min M_max =
      grad_logLikelihood theta D N M_min M_max :=
  ⟨rfl, rfl⟩

/-- C9: for `0 < M_min < M_max` no division by zero occurs in the model
functions for any `alpha`: whenever `beta ≠ 0`, both divisors `beta` and
`M_max ** beta - M_min ** beta` are nonzero, and when `beta = 0` both
functions take the closed-form branch built from `log(M_max / M_min)`
(respectively `float(N)`) instead of dividing. -/
theorem model_no_division_by_zero (M_min M_max : ℝ) (h1 : 0 < M_min)
    (h2 : M_min < M_max) :
    (∀ beta : ℝ, beta ≠ 0 → beta ≠ 0 ∧ powDiff M_min M_max beta ≠ 0) ∧
    (∀ (theta : List ℝ) (D N : ℝ), 1 - theta.headI = 0 →
      logLikelihood theta D N M_min M_max =
        N * Real.log (Real.log (M_max / M_min)) - theta.headI * D ∧
      grad_logLikelihood theta D N M_min M_max = [N]) := by
  constructor
  · intro beta hb
    refine ⟨hb, ?_⟩
    rcases lt_or_gt_of_ne hb with hneg | hpos
    · have hlt : M_max ^ beta < M_min ^ beta :=
        Real.rpow_lt_rpow_of_neg h1 h2 hneg
      exact ne_of_lt (sub_neg.mpr hlt)
    · have hlt : M_min ^ beta < M_max ^ beta :=
        Real.rpow_lt_rpow (le_of_lt h1) h2 hpos
      exact ne_of_gt (sub_pos.mpr hlt)
  · intro theta D N hbeta
    constructor
    · simp only [logLikelihood, if_pos hbeta]
    · simp only [grad_logLikelihood, if_neg (not_not_intro hbeta)]

/-- Witness for C9 at M_min = 1, M_max = 2. -/
theorem model_no_division_by_zero_witness :
    (0 : ℝ) < 1 ∧ (1 : ℝ) < 2 ∧
    ((∀ beta : ℝ, beta ≠ 0 → beta ≠ 0 ∧ powDiff 1 2 beta ≠ 0) ∧
     (∀ (theta : List ℝ) (D N : ℝ), 1 - theta.headI = 0 →
       logLikelihood theta D N 1 2 =
         N * Real.log (Real.log (2 / 1)) - theta.headI * D ∧
       grad_logLikelihood theta D N 1 2 = [N])) :=
  ⟨one_pos, one_lt_two, model_no_division_by_zero 1 2 one_pos one_lt_two⟩

/-- C10: the gradient reads only `theta[0]`: for nonempty parameter
vectors agreeing in their first entry it returns the same result, that
result is a vector of length exactly 1, and in the `beta == 0` case it is
exactly `[float(N)]` — so the gradient dimension is always 1 regardless
of the caller's `theta` length. -/
theorem grad_logLikelihood_dimension (theta theta' : List ℝ)
    (D N M_min M_max : ℝ) (h0 : theta ≠ []) (h1 : theta' ≠ [])
    (h : theta.headI = theta'.headI) :
    (grad_logLikelihood theta D N M_min M_max).length = 1 ∧
    grad_logLikelihood theta D N M_min M_max =
      grad_logLikelihood theta' D N M_min M_max ∧
    (1 - theta.headI = 0 →
      grad_logLikelihood theta D N M_min M_max = [N]) := by
  refine ⟨rfl, ?_, ?_⟩
  · simp only [grad_logLikelihood, h]
  · intro hb
    simp only [grad_logLikelihood, if_neg (not_not_intro hb)]

/-- Witness for C10 at theta = [2] and theta' = [2, 3]. -/
theorem grad_logLikelihood_dimension_witness :
    ([(2 : ℝ)] ≠ []) ∧ ([(2 : ℝ), 3] ≠ []) ∧
    ([(2 : ℝ)].headI = [(2 : ℝ), 3].headI) ∧
    ((grad_logLikelihood [(2 : ℝ)] 0 1 1 2).length = 1 ∧
     grad_logLikelihood [(2 : ℝ)] 0 1 1 2 =
       grad_logLikelihood [(2 : ℝ), 3] 0 1 1 2 ∧
     (1 - [(2 : ℝ)].headI = 0 →
       grad_logLikelihood [(2 : ℝ)] 0 1 1 2 = [1])) :=
  ⟨List.cons_ne_nil _ _, List.cons_ne_nil _ _, rfl,
   grad_logLikelihood_dimension [(2 : ℝ)] [(2 : ℝ), 3] 0 1 1 2
     (List.cons_ne_nil _ _) (List.cons_ne_nil _ _) rfl⟩
